import Mathlib

/-!
Formal model of the process-memory subsystem of the lycrex-tool repository.

The Rust sources embedded here are:
  * src/system/memory/utils.rs   — byte marshalling (bytes_to_u32, bytes_to_u64,
    bytes_to_utf8_string)
  * src/memory.rs (win_memory)   — the older Windows helper (to_utf8_string,
    ProcessInstance::read_utf8)
  * src/system/memory/windows.rs — process lookup, handle acquisition, typed reads,
    writes
  * src/system/memory/macos.rs   — Mach-O header scan, ASLR slide computation,
    vm_region fallback, typed reads, writes
  * src/system/memory/mod.rs     — ProcessMemoryInstance (write_memory and the
    MemoryOperationResult it produces)

Modelling conventions:
  * Bytes are `Nat`; fixed-width (usize/u32/u64) arithmetic is `Nat` with an explicit
    `% 2 ^ 64` at the operations the source performs with wrapping (release)
    semantics (`wrapping_sub`, and the additions whose wrap-around the source
    anticipates with its `if address == 0` check).
  * Operating-system calls (vm_read_overwrite, vm_region_64, task_for_pid,
    OpenProcess, CreateToolhelp32Snapshot, WriteProcessMemory) are oracles passed
    as function arguments; the surrounding Rust logic is translated directly.
  * `std::io::Error` values are modelled by their `ErrorKind`; `SystemError` by its
    constructor.  Message strings are not modelled — no claim concerns them.
  * A slice access the source performs without a bounds guard is modelled through
    `Option`-valued accessors; the distinguished result `MRes.panicked` marks the
    (unreachable) out-of-bounds case, so panic freedom is a provable statement.
-/

namespace LycrexTool

/-! ## Byte marshalling utilities — src/system/memory/utils.rs -/

/-- Little-endian value of four bytes, as in `u32::from_le_bytes`. -/
def leU32 (b0 b1 b2 b3 : Nat) : Nat :=
  b0 + b1 * 0x100 + b2 * 0x10000 + b3 * 0x1000000

/-- Little-endian value of eight bytes, as in `u64::from_le_bytes`. -/
def leU64 (b0 b1 b2 b3 b4 b5 b6 b7 : Nat) : Nat :=
  leU32 b0 b1 b2 b3 + leU32 b4 b5 b6 b7 * 0x100000000

/-- utils.rs `bytes_to_u32`: first four bytes little-endian, or 0 when the input
is shorter than four bytes. -/
def bytes_to_u32 : List Nat → Nat
  | b0 :: b1 :: b2 :: b3 :: _ => leU32 b0 b1 b2 b3
  | _ => 0

/-- utils.rs `bytes_to_u64`: first eight bytes little-endian, or 0 when the input
is shorter than eight bytes. -/
def bytes_to_u64 : List Nat → Nat
  | b0 :: b1 :: b2 :: b3 :: b4 :: b5 :: b6 :: b7 :: _ => leU64 b0 b1 b2 b3 b4 b5 b6 b7
  | _ => 0

/-! ## UTF-8 decoding, modelling `std::str::from_utf8`.
The decoder returns the list of unicode scalar values on success and `none` on
any encoding error (overlong forms, surrogates, out-of-range, truncation),
exactly the byte patterns Rust's validator accepts.  Strings are modelled as
lists of scalar values throughout. -/

def isUtf8Cont (b : Nat) : Bool := decide (0x80 ≤ b ∧ b ≤ 0xBF)

def utf8SecondOk3 (b c : Nat) : Bool :=
  if b = 0xE0 then decide (0xA0 ≤ c ∧ c ≤ 0xBF)
  else if b = 0xED then decide (0x80 ≤ c ∧ c ≤ 0x9F)
  else isUtf8Cont c

def utf8SecondOk4 (b c : Nat) : Bool :=
  if b = 0xF0 then decide (0x90 ≤ c ∧ c ≤ 0xBF)
  else if b = 0xF4 then decide (0x80 ≤ c ∧ c ≤ 0x8F)
  else isUtf8Cont c

def utf8Decode : List Nat → Option (List Nat)
  | [] => some []
  | b :: rest =>
    if b ≤ 0x7F then
      Option.map (fun t => b :: t) (utf8Decode rest)
    else if b < 0xC2 then none
    else if b ≤ 0xDF then
      match rest with
      | [] => none
      | c :: r =>
        if isUtf8Cont c then
          Option.map (fun t => ((b - 0xC0) * 0x40 + (c - 0x80)) :: t) (utf8Decode r)
        else none
    else if b ≤ 0xEF then
      match rest with
      | c :: d :: r =>
        if utf8SecondOk3 b c && isUtf8Cont d then
          Option.map (fun t => ((b - 0xE0) * 0x1000 + (c - 0x80) * 0x40 + (d - 0x80)) :: t)
            (utf8Decode r)
        else none
      | _ => none
    else if b ≤ 0xF4 then
      match rest with
      | c :: d :: e :: r =>
        if utf8SecondOk4 b c && isUtf8Cont d && isUtf8Cont e then
          Option.map
            (fun t =>
              ((b - 0xF0) * 0x40000 + (c - 0x80) * 0x1000 + (d - 0x80) * 0x40 + (e - 0x80)) :: t)
            (utf8Decode r)
        else none
      | _ => none
    else none

/-- utils.rs `bytes_to_utf8_string`: truncate at the first zero byte (or, when
there is none, keep the whole buffer — `position(..).unwrap_or(len)`, which is
`List.findIdx`), then decode as UTF-8, with the empty string on invalid
encoding. -/
def bytes_to_utf8_string (bytes : List Nat) : List Nat :=
  match utf8Decode (bytes.take (bytes.findIdx (fun b => b == 0))) with
  | some s => s
  | none => []

/-- src/memory.rs `win_memory::to_utf8_string`: decode the whole buffer as
UTF-8 — no truncation at a zero byte — with the empty string on invalid
encoding. -/
def to_utf8_string (bytes : List Nat) : List Nat :=
  match utf8Decode bytes with
  | some s => s
  | none => []

/-! ## Error model

`std::io::Error` values are modelled by the `ErrorKind` the source constructs
them with (`PermissionDenied`, `NotFound`, `Other`, `Unsupported`); an error
built by `from_raw_os_error` has an operating-system-dependent kind and is
supplied by the oracle.  `SystemError` (src/system/common/error.rs) is modelled
by its constructor. -/

inductive IoErrorKind where
  | notFound
  | permissionDenied
  | other
  | unsupported
  deriving DecidableEq

/-- The constructors of `SystemError` in src/system/common/error.rs
(message payloads are not modelled). -/
inductive SystemError where
  | PermissionDenied
  | NotFound
  | NotSupported
  | SystemCall
  | Io
  | Parse
  | Network
  | Configuration
  | Timeout
  | Busy
  | InvalidArgument
  | Internal
  | ProcessError
  | MemoryError
  | Unknown
  deriving DecidableEq

/-! ## Process resolver — src/system/memory/windows.rs `find_pid_by_name`

The Toolhelp snapshot is the oracle: `none` models `CreateToolhelp32Snapshot`
failing, `some entries` the enumeration order of (executable name, pid) pairs
walked with `Process32First`/`Process32Next` (each name already truncated at
the `szExeFile` NUL).  The walk stops at the first entry whose name compares
equal (`==`, exact and case-sensitive) to the requested name; when the walk
ends without a match the source returns `SystemError::ProcessError`. -/
def find_pid_by_name (snapshot : Option (List (String × Nat))) (process_name : String) :
    Except SystemError Nat :=
  match snapshot with
  | none => .error .ProcessError
  | some entries =>
    match entries.find? (fun e => e.1 == process_name) with
    | some e => .ok e.2
    | none => .error .ProcessError

/-! ## Privileged handle acquisition -/

/-- macos.rs `get_task_for_pid`: the `task_for_pid` syscall result is the oracle
(`kern_return`, with the task port it would produce).  Any non-zero kernel
status becomes an error of kind `PermissionDenied`. -/
def get_task_for_pid (kern_return : Int) (task : Nat) : Except IoErrorKind Nat :=
  if kern_return = 0 then .ok task else .error .permissionDenied

/-- windows.rs `open_handle_and_base`: `OpenProcess` and the module snapshot are
oracles (`none` = the native call failed; the snapshot carries the module base
addresses `Module32First` would walk).  Both failure paths build their error
with `ErrorKind::Other`; only the missing-base path uses `NotFound`. -/
def open_handle_and_base (openProcess : Option Nat) (modSnapshot : Option (List Nat)) :
    Except IoErrorKind (Nat × Nat) :=
  match openProcess with
  | none => .error .other
  | some handle =>
    match modSnapshot with
    | none => .error .other
    | some mods =>
      let base_addr := match mods.head? with
        | some m => m
        | none => 0
      if base_addr = 0 then .error .notFound
      else .ok (handle, base_addr)

/-! ## Write paths -/

/-- src/system/common/types.rs `MemoryOperationResult`.  The `error_message`
field is `Option String` in the source, holding
`"Only wrote {bytes_written} of {data.len()} bytes"`; it is modelled by the two
format arguments. -/
structure MemoryOperationResult where
  success : Bool
  bytes_processed : Nat
  error_message : Option (Nat × Nat)
  deriving DecidableEq

/-- mod.rs `ProcessMemoryInstance::write_memory`: the native
`write_process_memory` outcome is the oracle (`.ok bytes_written` or a native
error).  A successful transfer — complete or partial — becomes
`Ok(MemoryOperationResult ...)` carrying the exact byte count; a native failure
becomes `SystemError::MemoryError`. -/
def pmi_write_memory (native : Except IoErrorKind Nat) (data : List Nat) :
    Except SystemError MemoryOperationResult :=
  match native with
  | .ok bytes_written =>
    .ok { success := bytes_written == data.length
          bytes_processed := bytes_written
          error_message :=
            if bytes_written ≠ data.length then some (bytes_written, data.length) else none }
  | .error _ => .error .MemoryError

/-- windows.rs `ProcessInstance::write_memory` (macos.rs has the same shape):
a native success moving exactly `data.len()` bytes is `Ok(())`; a native
success moving fewer bytes is collapsed into an error of kind `Other`
(`"Only wrote {} bytes"`); a native failure is propagated. -/
def instance_write_memory (native : Except IoErrorKind Nat) (data : List Nat) :
    Except IoErrorKind Unit :=
  match native with
  | .ok bytes_written =>
    if bytes_written = data.length then .ok () else .error .other
  | .error e => .error e

/-! ## Typed instance reads

windows.rs and macos.rs define `ProcessInstance::read_u32` / `read_u64`
identically: read 4 (resp. 8) bytes at `base_addr + offset` through the
platform read primitive, then convert with `bytes_to_u32` / `bytes_to_u64`.
The platform read is the oracle `readFn`: it returns the (possibly truncated)
byte buffer of a successful native transfer, or the error the platform maps the
native failure to. -/

structure ProcessInstance where
  base_addr : Nat

def ProcessInstance.read_memory (readFn : Nat → Nat → Except IoErrorKind (List Nat))
    (self : ProcessInstance) (offset size : Nat) : Except IoErrorKind (List Nat) :=
  readFn (self.base_addr + offset) size

def ProcessInstance.read_u32 (readFn : Nat → Nat → Except IoErrorKind (List Nat))
    (self : ProcessInstance) (offset : Nat) : Except IoErrorKind Nat :=
  (self.read_memory readFn offset 4).map bytes_to_u32

def ProcessInstance.read_u64 (readFn : Nat → Nat → Except IoErrorKind (List Nat))
    (self : ProcessInstance) (offset : Nat) : Except IoErrorKind Nat :=
  (self.read_memory readFn offset 8).map bytes_to_u64

/-- src/memory.rs `win_memory::ProcessInstance::read_utf8`: read `size` bytes at
`base_addr + offset`, then convert with `win_memory::to_utf8_string`. -/
def ProcessInstance.win_read_utf8 (readFn : Nat → Nat → Except IoErrorKind (List Nat))
    (self : ProcessInstance) (offset size : Nat) : Except IoErrorKind (List Nat) :=
  (self.read_memory readFn offset size).map to_utf8_string

/-! ## Image base locator — src/system/memory/macos.rs

The kernel read `vm_read_overwrite` is the oracle
`vmRead : Nat → Nat → Option (List Nat)`: `some data` is a successful transfer
whose buffer, after the source's `truncate(data_count)`, holds `data`
(possibly shorter than requested); `none` is a non-`KERN_SUCCESS` status.
`usize` values wrap modulo `2 ^ 64`. -/

def U64MOD : Nat := 2 ^ 64

def MH_MAGIC_64 : Nat := 0xfeedfacf

def MH_EXECUTE : Nat := 0x2

def LC_SEGMENT_64 : Nat := 0x19

/-- The 7-byte needle `b"__TEXT\0"` of the `starts_with` check. -/
def segTEXT : List Nat := [0x5F, 0x5F, 0x54, 0x45, 0x58, 0x54, 0x00]

/-- Outcome of a locator routine: the source's `Ok(addr)`, `Err(kind)`, or the
distinguished marker for an out-of-bounds slice access (a Rust panic).  The
theorems below prove `panicked` unreachable. -/
inductive MRes where
  | ok (addr : Nat)
  | err (k : IoErrorKind)
  | panicked
  deriving DecidableEq

/-- macos.rs `read_process_memory`: a successful `vm_read_overwrite` yields the
(possibly truncated) buffer; any failing kernel status is wrapped with
`ErrorKind::PermissionDenied`. -/
def read_process_memory (vmRead : Nat → Nat → Option (List Nat)) (address size : Nat) :
    Except IoErrorKind (List Nat) :=
  match vmRead address size with
  | some data => .ok data
  | none => .error .permissionDenied

/-- macos.rs `write_process_memory`: `vm_protect` is attempted first and its
failure only logged (the oracle's boolean is ignored, as the source ignores the
status); a successful `vm_write` always reports `data.len()` bytes written, a
failing one becomes `ErrorKind::PermissionDenied`. -/
def write_process_memory (vmProtectOk : Bool) (vmWriteOk : Bool) (data : List Nat) :
    Except IoErrorKind Nat :=
  let _ := vmProtectOk
  if vmWriteOk then .ok data.length else .error .permissionDenied

/-- Guarded little-endian u32 read at index `i` of a byte list; `none` models
the slice access the source would panic on. -/
def bytesU32 (l : List Nat) (i : Nat) : Option Nat :=
  match l[i]?, l[i+1]?, l[i+2]?, l[i+3]? with
  | some a, some b, some c, some d => some (leU32 a b c d)
  | _, _, _, _ => none

/-- Guarded little-endian u64 read at index `i` of a byte list. -/
def bytesU64 (l : List Nat) (i : Nat) : Option Nat :=
  match bytesU32 l i, bytesU32 l (i + 4) with
  | some lo, some hi => some (lo + hi * 0x100000000)
  | _, _ => none

/-- The load-command walk of macos.rs `calculate_text_base_address`
(`for _ in 0..ncmds` with `offset` advancing by each command's own `cmdsize`).
The fuel argument is the remaining iteration count of the `for` loop.  Exiting
the loop — by exhausting `ncmds` or by the `offset + 8 > len` break — falls
through to the source's final `Ok(mach_header_addr)`.  On a `__TEXT` match the
source computes `slide = mach_header_addr.wrapping_sub(vmaddr)` and returns
`vmaddr + slide`, both modelled modulo `2 ^ 64`. -/
def ctba_loop (cmd_data : List Nat) (mach_header_addr : Nat) : Nat → Nat → MRes
  | 0, _ => .ok mach_header_addr
  | n + 1, offset =>
    if offset + 8 > cmd_data.length then .ok mach_header_addr
    else
      match bytesU32 cmd_data offset, bytesU32 cmd_data (offset + 4) with
      | some cmd, some cmdsize =>
        if cmd = LC_SEGMENT_64 ∧ offset + 72 ≤ cmd_data.length then
          if offset + 24 ≤ cmd_data.length then
            if (cmd_data.drop (offset + 8)).take 7 = segTEXT then
              if offset + 24 + 8 ≤ cmd_data.length then
                match bytesU64 cmd_data (offset + 24) with
                | some vmaddr =>
                  let slide :=
                    (mach_header_addr % U64MOD + (U64MOD - vmaddr % U64MOD)) % U64MOD
                  .ok ((vmaddr % U64MOD + slide) % U64MOD)
                | none => .panicked
              else ctba_loop cmd_data mach_header_addr n (offset + cmdsize)
            else ctba_loop cmd_data mach_header_addr n (offset + cmdsize)
          else ctba_loop cmd_data mach_header_addr n (offset + cmdsize)
        else ctba_loop cmd_data mach_header_addr n (offset + cmdsize)
      | _, _ => .panicked

/-- macos.rs `calculate_text_base_address`: read `sizeofcmds` bytes of load
commands at `mach_header_addr + 32`, walk them with `ctba_loop`; a failing read
is logged and falls through to `Ok(mach_header_addr)`. -/
def calculate_text_base_address (vmRead : Nat → Nat → Option (List Nat))
    (mach_header_addr ncmds sizeofcmds : Nat) : MRes :=
  match read_process_memory vmRead (mach_header_addr + 32) sizeofcmds with
  | .ok cmd_data => ctba_loop cmd_data mach_header_addr ncmds 0
  | .error _ => .ok mach_header_addr

/-- macos.rs `find_main_module_from_address`: read a 32-byte Mach-O header at
`start_addr`; a failing or short read, or a wrong magic / filetype, yields
`ErrorKind::NotFound`.  On a valid executable header, delegate to
`calculate_text_base_address`, falling back to `Ok(start_addr)` were it to
fail. -/
def find_main_module_from_address (vmRead : Nat → Nat → Option (List Nat))
    (start_addr : Nat) : MRes :=
  match read_process_memory vmRead start_addr 32 with
  | .ok header_data =>
    if 32 ≤ header_data.length then
      match bytesU32 header_data 0, bytesU32 header_data 12 with
      | some magic, some filetype =>
        if magic = MH_MAGIC_64 ∧ filetype = MH_EXECUTE then
          match bytesU32 header_data 16, bytesU32 header_data 20 with
          | some ncmds, some sizeofcmds =>
            match calculate_text_base_address vmRead start_addr ncmds sizeofcmds with
            | .ok text_base => .ok text_base
            | .err _ => .ok start_addr
            | .panicked => .panicked
          | _, _ => .panicked
        else .err .notFound
      | _, _ => .panicked
    else .err .notFound
  | .error _ => .err .notFound

/-- The `vm_region_64` oracle: for a requested address, `none` is a
non-`KERN_SUCCESS` status (the loop's break), `some (addr, size, prot)` the
region the kernel reports (its start address, size, and protection mask). -/
def RegionQuery : Type := Nat → Option (Nat × Nat × Nat)

/-- The scan loop of macos.rs `find_main_module_by_vm_region`
(`while checked_count < MAX_REGIONS_TO_CHECK`), with fuel the remaining
iteration budget.  Regions that are executable (`protection & VM_PROT_EXECUTE`)
and at least `0x1000` bytes are probed with `find_main_module_from_address`.
The second component counts the regions inspected, instrumenting the source's
`checked_count`.  (The `if let Ok(..) = find_main_module_from_address(..)` of
the source — probe only executable regions, return on success, otherwise fall
through to the next region — is rendered as one match whose skipped-region arm
carries a dummy `.err` that merely selects the fall-through branch.) -/
def fmmvr_loop (vmRead : Nat → Nat → Option (List Nat)) (rq : RegionQuery) :
    Nat → Nat → MRes × Nat
  | 0, _ => (.err .notFound, 0)
  | n + 1, address =>
    match rq address with
    | none => (.err .notFound, 0)
    | some (addr, size, prot) =>
      match
        (if prot.testBit 2 ∧ 0x1000 ≤ size then
          find_main_module_from_address vmRead addr
        else .err .notFound) with
      | .ok b => (.ok b, 1)
      | .panicked => (.panicked, 1)
      | .err _ =>
        if (addr + size) % U64MOD = 0 then (.err .notFound, 1)
        else
          match fmmvr_loop vmRead rq n ((addr + size) % U64MOD) with
          | (r, c) => (r, c + 1)

/-- macos.rs `find_main_module_by_vm_region`: scan from address `0x1000` with a
budget of `MAX_REGIONS_TO_CHECK = 100` regions; exhausting the budget, a
failing `vm_region_64`, or address wrap-around yields `ErrorKind::NotFound`. -/
def find_main_module_by_vm_region (vmRead : Nat → Nat → Option (List Nat))
    (rq : RegionQuery) : MRes × Nat :=
  fmmvr_loop vmRead rq 100 0x1000

/-- macos.rs `get_main_module_base_address`: acquire the task (its result is
the `taskResult` oracle), probe the three well-known candidate addresses, then
the region scan; when the region scan also fails, the source logs a warning and
returns the fallback `Ok(0x100000000)`. -/
def get_main_module_base_address (taskResult : Except IoErrorKind Nat)
    (vmRead : Nat → Nat → Option (List Nat)) (rq : RegionQuery) : MRes :=
  match taskResult with
  | .error e => .err e
  | .ok _task =>
    match find_main_module_from_address vmRead 0x100000000 with
    | .ok b => .ok b
    | .panicked => .panicked
    | .err _ =>
      match find_main_module_from_address vmRead 0x10000 with
      | .ok b => .ok b
      | .panicked => .panicked
      | .err _ =>
        match find_main_module_from_address vmRead 0x1000 with
        | .ok b => .ok b
        | .panicked => .panicked
        | .err _ =>
          match (find_main_module_by_vm_region vmRead rq).1 with
          | .ok b => .ok b
          | .panicked => .panicked
          | .err _ => .ok 0x100000000

/-- A synthetic load-command table for the witness of the slide computation:
one `LC_SEGMENT_64` command of size 72 named `__TEXT`, declaring virtual
address `0x100000000` (the remaining `SegmentCommand64` fields are zero). -/
def c2table : List Nat :=
  [0x19, 0, 0, 0, 72, 0, 0, 0] ++ segTEXT ++ [0, 0, 0, 0, 0, 0, 0, 0, 0] ++
    [0, 0, 0, 0, 1, 0, 0, 0] ++ List.replicate 40 0

/-! ## Helper lemmas -/

theorem bytes_to_u32_eq_zero_of_short (l : List Nat) (h : l.length < 4) : bytes_to_u32 l = 0 := by
  rcases l with _ | ⟨b0, _ | ⟨b1, _ | ⟨b2, _ | ⟨b3, t⟩⟩⟩⟩
  · rfl
  · rfl
  · rfl
  · rfl
  · exact absurd h (by simp)

theorem bytes_to_u64_eq_zero_of_short (l : List Nat) (h : l.length < 8) : bytes_to_u64 l = 0 := by
  rcases l with _ | ⟨b0, _ | ⟨b1, _ | ⟨b2, _ | ⟨b3, _ | ⟨b4, _ | ⟨b5, _ | ⟨b6, _ | ⟨b7, t⟩⟩⟩⟩⟩⟩⟩⟩
  · rfl
  · rfl
  · rfl
  · rfl
  · rfl
  · rfl
  · rfl
  · rfl
  · exact absurd h (by simp)

theorem take_findIdx_zero_eq_takeWhile (l : List Nat) :
    l.take (l.findIdx (fun b => b == 0)) = l.takeWhile (fun b => b != 0) := by
  induction l with
  | nil => rfl
  | cons a t ih =>
    rw [List.findIdx_cons, List.takeWhile_cons]
    by_cases ha : a = 0
    · subst ha
      simp
    · have ha1 : (a == 0) = false := by simpa using ha
      have ha2 : (a != 0) = true := by simpa using ha
      simp [ha1, ha2, List.take_succ_cons, ih]

theorem find_first_exact_match (name : String) :
    ∀ (pre : List (String × Nat)) (e : String × Nat) (post : List (String × Nat)),
      (∀ x ∈ pre, x.1 ≠ name) → e.1 = name →
      (pre ++ e :: post).find? (fun x => x.1 == name) = some e := by
  intro pre
  induction pre with
  | nil =>
    intro e post _ he
    simp only [List.nil_append]
    exact List.find?_cons_of_pos _ (by simpa using he)
  | cons x xs ih =>
    intro e post hpre he
    have hx : ((fun y : String × Nat => y.1 == name) x) = false := by
      simpa using hpre x (by simp)
    rw [List.cons_append,
      List.find?_cons_of_neg (p := fun y : String × Nat => y.1 == name) (a := x) _
        (by simp [hx])]
    exact ih e post (fun y hy => hpre y (by simp [hy])) he

theorem bytesU32_isSome (l : List Nat) (i : Nat) (h : i + 4 ≤ l.length) :
    ∃ v, bytesU32 l i = some v := by
  unfold bytesU32
  rw [List.getElem?_eq_getElem (show i < l.length by omega),
    List.getElem?_eq_getElem (show i + 1 < l.length by omega),
    List.getElem?_eq_getElem (show i + 2 < l.length by omega),
    List.getElem?_eq_getElem (show i + 3 < l.length by omega)]
  exact ⟨_, rfl⟩

theorem bytesU64_isSome (l : List Nat) (i : Nat) (h : i + 8 ≤ l.length) :
    ∃ v, bytesU64 l i = some v := by
  unfold bytesU64
  obtain ⟨lo, hlo⟩ := bytesU32_isSome l i (by omega)
  obtain ⟨hi, hhi⟩ := bytesU32_isSome l (i + 4) (by omega)
  rw [hlo, hhi]
  exact ⟨_, rfl⟩

/-- The load-command walk never reaches an out-of-bounds access and never
produces an error: every exit is `Ok`. -/
theorem ctba_loop_isOk (l : List Nat) (H : Nat) :
    ∀ n offset, ∃ x, ctba_loop l H n offset = MRes.ok x := by
  intro n
  induction n with
  | zero =>
    intro offset
    exact ⟨H, rfl⟩
  | succ n ih =>
    intro offset
    rw [ctba_loop]
    by_cases hlen : offset + 8 > l.length
    · rw [if_pos hlen]
      exact ⟨H, rfl⟩
    · rw [if_neg hlen]
      obtain ⟨cmd, hcmd⟩ := bytesU32_isSome l offset (by omega)
      obtain ⟨cs, hcs⟩ := bytesU32_isSome l (offset + 4) (by omega)
      simp only [hcmd, hcs]
      by_cases hseg : cmd = LC_SEGMENT_64 ∧ offset + 72 ≤ l.length
      · rw [if_pos hseg]
        by_cases h24 : offset + 24 ≤ l.length
        · rw [if_pos h24]
          by_cases htext : (l.drop (offset + 8)).take 7 = segTEXT
          · rw [if_pos htext]
            by_cases h32 : offset + 24 + 8 ≤ l.length
            · rw [if_pos h32]
              obtain ⟨vm, hvm⟩ := bytesU64_isSome l (offset + 24) (by omega)
              simp only [hvm]
              exact ⟨_, rfl⟩
            · rw [if_neg h32]
              exact ih _
          · rw [if_neg htext]
            exact ih _
        · rw [if_neg h24]
          exact ih _
      · rw [if_neg hseg]
        exact ih _

theorem calculate_text_base_address_isOk (vmRead : Nat → Nat → Option (List Nat))
    (mach_header_addr ncmds sizeofcmds : Nat) :
    ∃ x, calculate_text_base_address vmRead mach_header_addr ncmds sizeofcmds = MRes.ok x := by
  cases h : vmRead (mach_header_addr + 32) sizeofcmds with
  | none =>
    exact ⟨mach_header_addr, by simp [calculate_text_base_address, read_process_memory, h]⟩
  | some cmd_data =>
    obtain ⟨x, hx⟩ := ctba_loop_isOk cmd_data mach_header_addr ncmds 0
    exact ⟨x, by simp [calculate_text_base_address, read_process_memory, h, hx]⟩

/-- The region scan inspects at most `fuel` regions. -/
theorem fmmvr_loop_count_le (vmRead : Nat → Nat → Option (List Nat)) (rq : RegionQuery) :
    ∀ fuel address, (fmmvr_loop vmRead rq fuel address).2 ≤ fuel := by
  intro fuel
  induction fuel with
  | zero =>
    intro a
    simp [fmmvr_loop]
  | succ n ih =>
    intro a
    rw [fmmvr_loop]
    split
    · exact (by omega : (0 : Nat) ≤ n + 1)
    · split
      · exact (by omega : (1 : Nat) ≤ n + 1)
      · exact (by omega : (1 : Nat) ≤ n + 1)
      · split
        · exact (by omega : (1 : Nat) ≤ n + 1)
        · split
          rename_i r c hrec
          obtain ⟨X, hX⟩ : ∃ x, fmmvr_loop vmRead rq n x = (r, c) := ⟨_, hrec⟩
          have h := ih X
          rw [hX] at h
          exact Nat.succ_le_succ h

/-- Every error exit of the region scan carries kind `NotFound`. -/
theorem fmmvr_loop_err_notFound (vmRead : Nat → Nat → Option (List Nat)) (rq : RegionQuery) :
    ∀ fuel address k, (fmmvr_loop vmRead rq fuel address).1 = MRes.err k →
      k = IoErrorKind.notFound := by
  intro fuel
  induction fuel with
  | zero =>
    intro a k h
    simp [fmmvr_loop] at h
    exact h.symm
  | succ n ih =>
    intro a k h
    rw [fmmvr_loop] at h
    split at h
    · simp at h
      exact h.symm
    · split at h
      · simp at h
      · simp at h
      · split at h
        · simp at h
          exact h.symm
        · split at h
          rename_i r c hrec
          simp at h
          obtain ⟨X, hX⟩ : ∃ x, fmmvr_loop vmRead rq n x = (r, c) := ⟨_, hrec⟩
          exact ih X k (by rw [hX]; exact h)

/-! ## Claim theorems -/

/-- C7 (confirmed): for every byte sequence shorter than 4 (resp. 8) bytes,
`bytes_to_u32` (resp. `bytes_to_u64`) returns 0; for every byte sequence of at
least 4 (resp. 8) bytes it returns the little-endian integer encoded by the
first 4 (resp. 8) bytes; in particular `[0x12, 0x34, 0x56, 0x78]` yields
`0x78563412`. -/
theorem claim_c7 (bytes : List Nat) :
    (bytes.length < 4 → bytes_to_u32 bytes = 0) ∧
    (∀ b0 b1 b2 b3 t, bytes = b0 :: b1 :: b2 :: b3 :: t →
      bytes_to_u32 bytes = b0 + b1 * 0x100 + b2 * 0x10000 + b3 * 0x1000000) ∧
    (bytes.length < 8 → bytes_to_u64 bytes = 0) ∧
    (∀ b0 b1 b2 b3 b4 b5 b6 b7 t,
      bytes = b0 :: b1 :: b2 :: b3 :: b4 :: b5 :: b6 :: b7 :: t →
      bytes_to_u64 bytes = b0 + b1 * 0x100 + b2 * 0x10000 + b3 * 0x1000000 +
        (b4 + b5 * 0x100 + b6 * 0x10000 + b7 * 0x1000000) * 0x100000000) ∧
    bytes_to_u32 [0x12, 0x34, 0x56, 0x78] = 0x78563412 := by
  refine ⟨bytes_to_u32_eq_zero_of_short bytes, ?_, bytes_to_u64_eq_zero_of_short bytes, ?_,
    by decide⟩
  · intro b0 b1 b2 b3 t ht
    subst ht
    simp [bytes_to_u32, leU32]
  · intro b0 b1 b2 b3 b4 b5 b6 b7 t ht
    subst ht
    simp [bytes_to_u64, leU64, leU32]

/-- C7 witness: the theorem applied at the spec's concrete inputs. -/
theorem claim_c7_witness :
    bytes_to_u32 [0x12, 0x34, 0x56, 0x78] = 0x78563412 ∧ bytes_to_u64 [0x12, 0x34] = 0 :=
  ⟨(claim_c7 [0x12, 0x34, 0x56, 0x78]).2.2.2.2,
   (claim_c7 [0x12, 0x34]).2.2.1 (by decide)⟩

/-- C8 counterexample: the claim asserts that the win_memory `to_utf8_string`
conversion (which `read_utf8` delegates to) also truncates at the first zero
byte, so that `b"Hello\0World"` yields `"Hello"`.  In fact it decodes the whole
buffer: the result is `"Hello\0World"`, not `"Hello"`; only the utils
`bytes_to_utf8_string` truncates. -/
theorem claim_c8_counterexample :
    to_utf8_string [72, 101, 108, 108, 111, 0, 87, 111, 114, 108, 100] =
      [72, 101, 108, 108, 111, 0, 87, 111, 114, 108, 100] ∧
    to_utf8_string [72, 101, 108, 108, 111, 0, 87, 111, 114, 108, 100] ≠
      [72, 101, 108, 108, 111] ∧
    bytes_to_utf8_string [72, 101, 108, 108, 111, 0, 87, 111, 114, 108, 100] =
      [72, 101, 108, 108, 111] := by
  refine ⟨by decide, by decide, by decide⟩

/-- C8 (corrected): utils `bytes_to_utf8_string` truncates its input at the
first zero byte (or end of buffer) and decodes the prefix as UTF-8, with the
empty string on invalid encoding (`b"Hello\0World"` yields `"Hello"`, invalid
UTF-8 yields `""`); but the win_memory `to_utf8_string` that `read_utf8`
delegates to decodes the entire buffer with no zero-byte truncation. -/
theorem claim_c8_amended (bytes : List Nat)
    (readFn : Nat → Nat → Except IoErrorKind (List Nat)) (inst : ProcessInstance)
    (offset size : Nat) :
    bytes_to_utf8_string bytes =
      (match utf8Decode (bytes.takeWhile (fun b => b != 0)) with
        | some s => s
        | none => []) ∧
    (∀ data, readFn (inst.base_addr + offset) size = .ok data →
      inst.win_read_utf8 readFn offset size = .ok (to_utf8_string data)) ∧
    bytes_to_utf8_string [72, 101, 108, 108, 111, 0, 87, 111, 114, 108, 100] =
      [72, 101, 108, 108, 111] ∧
    bytes_to_utf8_string [72, 101, 108, 108, 111] = [72, 101, 108, 108, 111] ∧
    bytes_to_utf8_string [0xFF, 0xFE, 0xFD] = [] ∧
    to_utf8_string [72, 101, 108, 108, 111, 0, 87, 111, 114, 108, 100] =
      [72, 101, 108, 108, 111, 0, 87, 111, 114, 108, 100] := by
  refine ⟨?_, ?_, by decide, by decide, by decide, by decide⟩
  · unfold bytes_to_utf8_string
    rw [take_findIdx_zero_eq_takeWhile]
  · intro data h
    unfold ProcessInstance.win_read_utf8 ProcessInstance.read_memory
    rw [h]
    rfl

/-- C8 witness: the theorem applied at a concrete buffer and read oracle. -/
theorem claim_c8_witness :
    ProcessInstance.win_read_utf8 (fun _ _ => Except.ok [72, 0, 105]) ⟨0⟩ 0 3 =
      Except.ok (to_utf8_string [72, 0, 105]) ∧
    bytes_to_utf8_string [72, 0, 105] =
      (match utf8Decode ([72, 0, 105].takeWhile (fun b => b != 0)) with
        | some s => s
        | none => []) :=
  ⟨(claim_c8_amended [72, 0, 105] (fun _ _ => Except.ok [72, 0, 105]) ⟨0⟩ 0 3).2.1
      [72, 0, 105] rfl,
   (claim_c8_amended [72, 0, 105] (fun _ _ => Except.ok [72, 0, 105]) ⟨0⟩ 0 3).1⟩

/-- C3 counterexample: the claim asserts that `find_pid_by_name` fails with
`NotFound` when no live process matches.  With a successfully created snapshot
enumerating no matching process, the source returns
`SystemError::ProcessError("Process not found: ..")`, which is not the
`NotFound` constructor. -/
theorem claim_c3_counterexample :
    find_pid_by_name (some []) "target" = .error .ProcessError ∧
    SystemError.ProcessError ≠ SystemError.NotFound :=
  ⟨rfl, by decide⟩

/-- C3 (corrected): `find_pid_by_name` returns the identifier of the first
enumerated process whose executable name exactly (case-sensitively) matches;
when no process matches it fails with `ProcessError` — the same constructor
used when the enumeration mechanism itself fails — not with `NotFound`. -/
theorem claim_c3_amended (name : String) (entries : List (String × Nat)) :
    find_pid_by_name none name = .error .ProcessError ∧
    ((∀ e ∈ entries, e.1 ≠ name) →
      find_pid_by_name (some entries) name = .error .ProcessError) ∧
    (∀ pre e post, entries = pre ++ e :: post → (∀ x ∈ pre, x.1 ≠ name) → e.1 = name →
      find_pid_by_name (some entries) name = .ok e.2) := by
  refine ⟨rfl, ?_, ?_⟩
  · intro hall
    have hnone : entries.find? (fun e => e.1 == name) = none := by
      rw [List.find?_eq_none]
      intro x hx
      simpa using hall x hx
    simp [find_pid_by_name, hnone]
  · intro pre e post hsplit hpre he
    subst hsplit
    simp [find_pid_by_name, find_first_exact_match name pre e post hpre he]

/-- C3 witness: the theorem applied to a concrete enumeration — the first of
two same-named processes wins, and a non-matching enumeration yields
`ProcessError`. -/
theorem claim_c3_witness :
    find_pid_by_name (some [("a", 1), ("b", 2), ("b", 3)]) "b" = .ok 2 ∧
    find_pid_by_name (some [("a", 1)]) "b" = .error .ProcessError := by
  constructor
  · exact (claim_c3_amended "b" [("a", 1), ("b", 2), ("b", 3)]).2.2
      [("a", 1)] ("b", 2) [("b", 3)] rfl (by decide) rfl
  · exact (claim_c3_amended "b" [("a", 1)]).2.1 (by decide)

/-- C4 counterexample: the claim asserts that `open_handle_and_base` fails with
`PermissionDenied` when the caller lacks access rights.  When `OpenProcess`
fails (the access-denied path on Windows), the source wraps the failure with
`ErrorKind::Other`, not `PermissionDenied`. -/
theorem claim_c4_counterexample :
    open_handle_and_base none (some []) = .error .other ∧
    IoErrorKind.other ≠ IoErrorKind.permissionDenied :=
  ⟨rfl, by decide⟩

/-- C4 (corrected): on macOS every `task_for_pid` failure — access denied or
otherwise — becomes `PermissionDenied`; on Windows `open_handle_and_base`
reports a failing `OpenProcess` (including access denied) with error kind
`Other`, never `PermissionDenied`. -/
theorem claim_c4_amended (kern_return : Int) (task : Nat) (modSnapshot : Option (List Nat)) :
    (kern_return ≠ 0 → get_task_for_pid kern_return task = .error .permissionDenied) ∧
    open_handle_and_base none modSnapshot = .error .other := by
  constructor
  · intro h
    simp [get_task_for_pid, h]
  · rfl

/-- C4 witness: the theorem applied at a concrete failing kernel status. -/
theorem claim_c4_witness :
    get_task_for_pid 5 0 = .error .permissionDenied ∧
    open_handle_and_base none (some [4096]) = .error .other :=
  ⟨(claim_c4_amended 5 0 (some [4096])).1 (by decide),
   (claim_c4_amended 5 0 (some [4096])).2⟩

/-- C5 counterexample: the claim asserts that every write operation whose
native transfer succeeds but moves fewer bytes than requested reports the byte
count as data.  The platform-level `ProcessInstance::write_memory` instead
collapses such a partial write into a plain error of kind `Other` (the count
appears only in the message text): with a native success moving 1 of 2 bytes
the result is an error, not data. -/
theorem claim_c5_counterexample :
    instance_write_memory (Except.ok 1) [7, 7] = .error .other := rfl

/-- C5 (corrected): the unified `ProcessMemoryInstance::write_memory` reports a
successful-but-short native transfer as `Ok(MemoryOperationResult)` with
`success = false` and `bytes_processed` the exact count — not a binary
success/failure; but the platform `ProcessInstance::write_memory` wrapper
collapses the same partial write into an error of kind `Other`. -/
theorem claim_c5_amended (data : List Nat) (n : Nat) (h : n < data.length) :
    pmi_write_memory (Except.ok n) data =
      .ok { success := false, bytes_processed := n, error_message := some (n, data.length) } ∧
    instance_write_memory (Except.ok n) data = .error .other := by
  have hne : n ≠ data.length := by omega
  constructor
  · simp [pmi_write_memory, hne]
  · simp [instance_write_memory, hne]

/-- C5 witness: the theorem applied at a concrete 1-of-2-byte partial write. -/
theorem claim_c5_witness :
    pmi_write_memory (Except.ok 1) [7, 7] =
      .ok { success := false, bytes_processed := 1, error_message := some (1, 2) } ∧
    instance_write_memory (Except.ok 1) [7, 7] = .error .other := by
  have h := claim_c5_amended [7, 7] 1 (by decide)
  simpa using h

/-- C10 (confirmed): when the platform read primitive reports success but
transfers fewer than 4 (resp. 8) bytes, `ProcessInstance::read_u32`
(resp. `read_u64`) returns `Ok(0)` — indistinguishable from reading memory
that contains zero. -/
theorem claim_c10 (readFn : Nat → Nat → Except IoErrorKind (List Nat))
    (inst : ProcessInstance) (offset : Nat) (data : List Nat) :
    (readFn (inst.base_addr + offset) 4 = .ok data → data.length < 4 →
      inst.read_u32 readFn offset = .ok 0) ∧
    (readFn (inst.base_addr + offset) 8 = .ok data → data.length < 8 →
      inst.read_u64 readFn offset = .ok 0) := by
  constructor
  · intro h hlen
    unfold ProcessInstance.read_u32 ProcessInstance.read_memory
    rw [h]
    show Except.ok (bytes_to_u32 data) = Except.ok 0
    rw [bytes_to_u32_eq_zero_of_short data hlen]
  · intro h hlen
    unfold ProcessInstance.read_u64 ProcessInstance.read_memory
    rw [h]
    show Except.ok (bytes_to_u64 data) = Except.ok 0
    rw [bytes_to_u64_eq_zero_of_short data hlen]

/-- C10 witness: the theorem applied at a concrete truncated two-byte read. -/
theorem claim_c10_witness :
    ProcessInstance.read_u32 (fun _ _ => Except.ok [1, 2]) ⟨0x1000⟩ 8 = .ok 0 ∧
    ProcessInstance.read_u64 (fun _ _ => Except.ok [1, 2]) ⟨0x1000⟩ 8 = .ok 0 :=
  ⟨(claim_c10 (fun _ _ => Except.ok [1, 2]) ⟨0x1000⟩ 8 [1, 2]).1 rfl (by decide),
   (claim_c10 (fun _ _ => Except.ok [1, 2]) ⟨0x1000⟩ 8 [1, 2]).2 rfl (by decide)⟩

/-- C9 (confirmed): the region-scan fallback inspects at most
`MAX_REGIONS_TO_CHECK = 100` regions before giving up, for every read oracle
and every region-enumeration oracle; it is a total function (structural
recursion on the remaining budget), hence terminates on every address
space. -/
theorem claim_c9 (vmRead : Nat → Nat → Option (List Nat)) (rq : RegionQuery) :
    (find_main_module_by_vm_region vmRead rq).2 ≤ 100 :=
  fmmvr_loop_count_le vmRead rq 100 0x1000

/-- C6 (confirmed): header-scan parsing is total on arbitrary target-memory
contents — `find_main_module_from_address` and `calculate_text_base_address`
never reach the out-of-bounds marker (every slice access is guarded), and a
successful read shorter than the 32-byte header is treated as header-parse
failure (`NotFound`).  The source's unchecked `vmaddr + slide` addition is
modelled with wrapping (release-profile) semantics. -/
theorem claim_c6 (vmRead : Nat → Nat → Option (List Nat))
    (start_addr mach_header_addr ncmds sizeofcmds : Nat) :
    find_main_module_from_address vmRead start_addr ≠ MRes.panicked ∧
    calculate_text_base_address vmRead mach_header_addr ncmds sizeofcmds ≠ MRes.panicked ∧
    (∀ data, vmRead start_addr 32 = some data → data.length < 32 →
      find_main_module_from_address vmRead start_addr = MRes.err .notFound) := by
  refine ⟨?_, ?_, ?_⟩
  · cases hread : vmRead start_addr 32 with
    | none => simp [find_main_module_from_address, read_process_memory, hread]
    | some data =>
      by_cases hlen : 32 ≤ data.length
      · obtain ⟨magic, hm⟩ := bytesU32_isSome data 0 (by omega)
        obtain ⟨ft, hft⟩ := bytesU32_isSome data 12 (by omega)
        obtain ⟨nc, hnc⟩ := bytesU32_isSome data 16 (by omega)
        obtain ⟨sc, hsc⟩ := bytesU32_isSome data 20 (by omega)
        obtain ⟨x, hx⟩ := calculate_text_base_address_isOk vmRead start_addr nc sc
        by_cases hmag : magic = MH_MAGIC_64 ∧ ft = MH_EXECUTE
        · simp [find_main_module_from_address, read_process_memory, hread, hlen,
            hm, hft, hnc, hsc, hx, hmag]
        · simp [find_main_module_from_address, read_process_memory, hread, hlen,
            hm, hft, hmag]
      · simp [find_main_module_from_address, read_process_memory, hread, hlen]
  · obtain ⟨x, hx⟩ :=
      calculate_text_base_address_isOk vmRead mach_header_addr ncmds sizeofcmds
    rw [hx]
    simp
  · intro data hread hlen
    simp [find_main_module_from_address, read_process_memory, hread, Nat.not_le.mpr hlen]

/-- C6 witness: the theorem applied at a concrete oracle whose read returns a
single byte — shorter than the header — so the scan reports `NotFound`. -/
theorem claim_c6_witness :
    find_main_module_from_address (fun _ _ => some [0]) 0x1000 = MRes.err .notFound :=
  (claim_c6 (fun _ _ => some [0]) 0x1000 0 0 0).2.2 [0] rfl (by decide)

/-- C2 (confirmed): when the load-command walk locates the `__TEXT` entry with
declared virtual address `V` below a header loaded at `H`, it returns exactly
`V + S` where `S = H − V` in wrapping 64-bit arithmetic (the source's
`wrapping_sub` followed by an addition, modelled modulo `2 ^ 64`), and that
value equals `H`: the locator recovers `declared_address + slide`. -/
theorem claim_c2 (cmd_data : List Nat) (mach_header_addr vmaddr fuel offset cmdsize : Nat)
    (hH : mach_header_addr < 2 ^ 64) (hV : vmaddr < 2 ^ 64)
    (hlen : offset + 8 ≤ cmd_data.length)
    (hcmd : bytesU32 cmd_data offset = some LC_SEGMENT_64)
    (hsize : bytesU32 cmd_data (offset + 4) = some cmdsize)
    (hbound : offset + 72 ≤ cmd_data.length)
    (hname : (cmd_data.drop (offset + 8)).take 7 = segTEXT)
    (hvm : bytesU64 cmd_data (offset + 24) = some vmaddr) :
    ctba_loop cmd_data mach_header_addr (fuel + 1) offset =
      MRes.ok ((vmaddr + (mach_header_addr + (2 ^ 64 - vmaddr)) % 2 ^ 64) % 2 ^ 64) ∧
    (vmaddr + (mach_header_addr + (2 ^ 64 - vmaddr)) % 2 ^ 64) % 2 ^ 64 =
      mach_header_addr := by
  have hM : (2 : Nat) ^ 64 = 18446744073709551616 := by norm_num
  have harith : (vmaddr + (mach_header_addr + (2 ^ 64 - vmaddr)) % 2 ^ 64) % 2 ^ 64 =
      mach_header_addr := by
    rw [hM] at hH hV ⊢
    omega
  refine ⟨?_, harith⟩
  have hmod_v : vmaddr % 2 ^ 64 = vmaddr := Nat.mod_eq_of_lt hV
  have hmod_h : mach_header_addr % 2 ^ 64 = mach_header_addr := Nat.mod_eq_of_lt hH
  have h1 : ¬(offset + 8 > cmd_data.length) := by omega
  have h24 : offset + 24 ≤ cmd_data.length := by omega
  have h32 : offset + 24 + 8 ≤ cmd_data.length := by omega
  rw [ctba_loop, if_neg h1]
  simp only [hcmd, hsize]
  rw [if_pos ⟨by trivial, hbound⟩, if_pos h24, if_pos hname, if_pos h32]
  simp only [hvm]
  simp only [U64MOD, hmod_v, hmod_h]

/-- C2 witness: the synthetic table with declared base `0x100000000` and a
header loaded at `0x100001000` (slide `0x1000`): the walk returns exactly
`declared_address + slide`. -/
theorem claim_c2_witness :
    ctba_loop c2table 0x100001000 1 0 =
      MRes.ok ((0x100000000 + (0x100001000 + (2 ^ 64 - 0x100000000)) % 2 ^ 64) % 2 ^ 64) ∧
    (0x100000000 + (0x100001000 + (2 ^ 64 - 0x100000000)) % 2 ^ 64) % 2 ^ 64 =
      0x100001000 :=
  claim_c2 c2table 0x100001000 0x100000000 0 0 72 (by norm_num) (by norm_num)
    (by decide) (by decide) (by decide) (by decide) (by decide) (by decide)

/-- C1 counterexample: the claim asserts that when no candidate address and no
scanned region yields a valid header, `get_main_module_base_address` fails with
`NotFound`.  With oracles on which every read and every region query fails, it
instead succeeds with the fallback address `0x100000000`. -/
theorem claim_c1_counterexample :
    get_main_module_base_address (Except.ok 0) (fun _ _ => none) (fun _ => none) =
      MRes.ok 0x100000000 := rfl

/-- C1 (corrected): when neither the candidate addresses nor the region scan
yields a valid header, the inner `find_main_module_by_vm_region` does fail with
`NotFound`, but `get_main_module_base_address` swallows that error and returns
the fallback address `Ok(0x100000000)` instead of failing. -/
theorem claim_c1_amended (task : Nat) (vmRead : Nat → Nat → Option (List Nat))
    (rq : RegionQuery) (k1 k2 k3 k : IoErrorKind)
    (h1 : find_main_module_from_address vmRead 0x100000000 = .err k1)
    (h2 : find_main_module_from_address vmRead 0x10000 = .err k2)
    (h3 : find_main_module_from_address vmRead 0x1000 = .err k3)
    (h4 : (find_main_module_by_vm_region vmRead rq).1 = .err k) :
    get_main_module_base_address (Except.ok task) vmRead rq = MRes.ok 0x100000000 ∧
    k = IoErrorKind.notFound := by
  constructor
  · simp [get_main_module_base_address, h1, h2, h3, h4]
  · exact fmmvr_loop_err_notFound vmRead rq 100 0x1000 k h4

/-- C1 witness: the theorem applied at concrete all-failing oracles. -/
theorem claim_c1_witness :
    get_main_module_base_address (Except.ok 7) (fun _ _ => none) (fun _ => none) =
      MRes.ok 0x100000000 ∧ IoErrorKind.notFound = IoErrorKind.notFound :=
  claim_c1_amended 7 (fun _ _ => none) (fun _ => none)
    .notFound .notFound .notFound .notFound rfl rfl rfl rfl

end LycrexTool
